import Mathlib

/-!
# Verification of the PPTFromVideo frame extractors

Shallow embedding of the two extraction cores of the repository:

* `extract_frames` in `main.py` (scene-driven extractor): streams frames,
  keeps one frame of grayscale history, and captures a frame either when the
  mean absolute grayscale difference to the previous frame exceeds a
  threshold (subject to a `fps*5` cooldown since the last capture) or when
  the frame index is a multiple of `interval_seconds * fps`.
* `get_screenshot` / `capture_timestamps` in `at_time.py` (timestamp-driven
  extractor): maps a `(minutes, seconds)` pair to a frame index and captures
  that frame unless the index is at or beyond the total frame count.

Frames are modelled by their grayscale projection, a list of pixel values;
the mean difference is a rational.  I/O effects (grayscale conversion
failure, image-write failure) are modelled as per-frame flags on the input,
and the Python `ZeroDivisionError` raised by `frame_count %
(interval_seconds * fps)` when `interval_seconds * fps == 0` is modelled as
a crash that truncates the run.
-/

namespace PPTFromVideo

/-- A grayscale projection of a frame: the list of its pixel values
(`cv2.cvtColor(frame, cv2.COLOR_BGR2GRAY)` flattened). -/
abbrev Gray := List ℕ

/-- `np.mean(cv2.absdiff(gray, prev))`: the mean absolute pixel difference
between two grayscale frames (over the pixels of the first frame; frames of
a video share one shape, so `zip` loses nothing). -/
def meanDiff (a b : Gray) : ℚ :=
  ((((a.zip b).map (fun p => ((p.1 : ℤ) - (p.2 : ℤ)).natAbs)).sum : ℕ) : ℚ)
    / ((a.length : ℕ) : ℚ)

/-- Run parameters of `extract_frames(video_path, interval_seconds, scene_threshold)`
together with the stream's `fps`. -/
structure Config where
  fps : ℕ
  intervalSeconds : ℕ
  sceneThreshold : ℚ
deriving DecidableEq, Repr

/-- The mutable loop state of `extract_frames`:
`prev_frame`, `frame_count`, `last_captured`, `screenshots_taken`. -/
structure SamplingState where
  prevGray : Option Gray
  frameCount : ℕ
  lastCaptured : ℤ
  screenshotsTaken : ℕ
deriving DecidableEq, Repr

/-- Initial loop state (`main.py` lines 72–75):
`prev_frame = None`, `frame_count = 0`,
`last_captured = -interval_seconds * fps`, `screenshots_taken = 0`. -/
def initState (cfg : Config) : SamplingState :=
  { prevGray := none
    frameCount := 0
    lastCaptured := -((cfg.intervalSeconds * cfg.fps : ℕ) : ℤ)
    screenshotsTaken := 0 }

/-- Which decision branch fired a capture. -/
inductive Branch where
  | scene
  | interval
deriving DecidableEq, Repr

/-- A capture decision made by the loop: the frame index at which
`should_capture` became true, the branch that set it, the sequence number
used in the file name (`screenshots_taken` at capture time), and whether
the `cv2.imwrite` persist succeeded. -/
structure CaptureRecord where
  idx : ℕ
  branch : Branch
  seq : ℕ
  persisted : Bool
deriving DecidableEq, Repr

/-- One frame as read from the stream: `gray = none` models a frame whose
grayscale conversion raises (the `except`/`continue` at lines 83–87);
`writeOk` models whether `cv2.imwrite` would succeed for this frame. -/
structure FrameInput where
  gray : Option Gray
  writeOk : Bool
deriving DecidableEq, Repr

/-- The decision of lines 89–102: `none` inside `some` means no capture,
`some br` the firing branch; the outer `none` is the Python
`ZeroDivisionError` of `frame_count % (interval_seconds * fps)` when
`interval_seconds * fps = 0`.  The whole `if/elif` sits under
`if prev_frame is not None`, so the seed frame decides nothing. -/
def decideBranch (cfg : Config) (st : SamplingState) (gray : Gray) :
    Option (Option Branch) :=
  match st.prevGray with
  | none => some none
  | some prev =>
    if meanDiff gray prev > cfg.sceneThreshold ∧
        (st.frameCount : ℤ) - st.lastCaptured > ((cfg.fps * 5 : ℕ) : ℤ) then
      some (some Branch.scene)
    else if cfg.intervalSeconds * cfg.fps = 0 then
      none
    else if st.frameCount % (cfg.intervalSeconds * cfg.fps) = 0 then
      some (some Branch.interval)
    else
      some none

/-- One iteration of the `while` loop of `extract_frames` on a frame that
was read successfully (lines 82–130).  Returns the new state and the
capture made this step, or `none` on the modulo-by-zero crash.  A grayscale
conversion failure (`inp.gray = none`) leaves the state untouched
(`continue` before any state update).  On a capture, `last_captured` is set
to the frame index whether or not the write succeeded, while
`screenshots_taken` is incremented only on a successful write
(lines 115–127). -/
def step (cfg : Config) (st : SamplingState) (inp : FrameInput) :
    Option (SamplingState × Option CaptureRecord) :=
  match inp.gray with
  | none => some (st, none)
  | some gray =>
    match decideBranch cfg st gray with
    | none => none
    | some none =>
      some ({ st with prevGray := some gray, frameCount := st.frameCount + 1 },
            none)
    | some (some br) =>
      let r : CaptureRecord :=
        { idx := st.frameCount
          branch := br
          seq := st.screenshotsTaken
          persisted := inp.writeOk }
      some ({ prevGray := some gray
              frameCount := st.frameCount + 1
              lastCaptured := (st.frameCount : ℤ)
              screenshotsTaken :=
                if inp.writeOk then st.screenshotsTaken + 1
                else st.screenshotsTaken },
            some r)

/-- Outcome of a run: the capture decisions in order, the final loop state,
and whether the run was cut short by the modulo-by-zero crash. -/
structure RunResult where
  records : List CaptureRecord
  finalState : SamplingState
  crashed : Bool
deriving DecidableEq, Repr

/-- The `while` loop of `extract_frames` from an arbitrary state. -/
def runFrom (cfg : Config) (st : SamplingState) :
    List FrameInput → RunResult
  | [] => ⟨[], st, false⟩
  | inp :: rest =>
    match step cfg st inp with
    | none => ⟨[], st, true⟩
    | some (st', orec) =>
      let res := runFrom cfg st' rest
      ⟨orec.toList ++ res.records, res.finalState, res.crashed⟩

/-- `extract_frames` on a stream of frames: the loop run from the initial
state. -/
def extractFrames (cfg : Config) (inputs : List FrameInput) : RunResult :=
  runFrom cfg (initState cfg) inputs

/-- A stream of frames that all convert to grayscale and persist
successfully. -/
def okFrames (gs : List Gray) : List FrameInput :=
  gs.map (fun g => ⟨some g, true⟩)

/-! ## Timestamp-driven extractor (`at_time.py`) -/

/-- Failure of the timestamp resolver. -/
inductive TsError where
  | beyondDuration
deriving DecidableEq, Repr

/-- Lines 74–81 of `at_time.py`: `frame_number = int((minutes*60 + seconds)
* fps)` (exact for integer inputs), failing when `frame_number >=
total_frames`. -/
def resolveTimestamp (minutes seconds fps totalFrames : ℕ) :
    Except TsError ℕ :=
  let frameNumber := (minutes * 60 + seconds) * fps
  if frameNumber ≥ totalFrames then .error .beyondDuration
  else .ok frameNumber

/-- The video properties the timestamp extractor reads. -/
structure Video where
  fps : ℕ
  totalFrames : ℕ
deriving DecidableEq, Repr

/-- `capture_timestamps` (lines 126–131): fold over the batch, counting
successes, collecting the captured frame indices, and collecting the
timestamps whose resolution failed; a failure never aborts the batch. -/
def captureTimestamps (v : Video) (ts : List (ℕ × ℕ)) :
    ℕ × List ℕ × List (ℕ × ℕ) :=
  ts.foldl
    (fun acc t =>
      match resolveTimestamp t.1 t.2 v.fps v.totalFrames with
      | .ok idx => (acc.1 + 1, acc.2.1 ++ [idx], acc.2.2)
      | .error _ => (acc.1, acc.2.1, acc.2.2 ++ [t]))
    (0, [], [])

/-! ## Basic facts about the model -/

/-- A mean of absolute values is non-negative. -/
lemma meanDiff_nonneg (a b : Gray) : 0 ≤ meanDiff a b := by
  unfold meanDiff
  positivity

/-- A frame whose grayscale conversion fails is a complete no-op:
the state is returned untouched and no capture is made. -/
lemma step_gray_none (cfg : Config) (st : SamplingState) (w : Bool) :
    step cfg st ⟨none, w⟩ = some (st, none) := rfl

/-- A step that makes no capture does not change `screenshots_taken`. -/
lemma step_none_screenshots (cfg : Config) (st st' : SamplingState)
    (inp : FrameInput) (h : step cfg st inp = some (st', none)) :
    st'.screenshotsTaken = st.screenshotsTaken := by
  rcases inp with ⟨g, w⟩
  rcases g with _ | g
  · rw [step_gray_none] at h
    simp only [Option.some.injEq, Prod.mk.injEq] at h
    rw [← h.1]
  · rcases hdb : decideBranch cfg st g with _ | ob
    · simp only [step, hdb] at h
      exact Option.noConfusion h
    · rcases ob with _ | br
      · simp only [step, hdb, Option.some.injEq, Prod.mk.injEq] at h
        rw [← h.1]
      · simp only [step, hdb, Option.some.injEq, Prod.mk.injEq] at h
        exact absurd h.2 (by simp)

/-- A step that captures emits the record of the current frame index,
stamped with the current `screenshots_taken` as sequence number and the
write outcome, and sets `last_captured` to the current index;
`screenshots_taken` grows only if the write succeeded. -/
lemma step_capture_elim (cfg : Config) (st st' : SamplingState)
    (inp : FrameInput) (r : CaptureRecord)
    (h : step cfg st inp = some (st', some r)) :
    r.idx = st.frameCount ∧ r.seq = st.screenshotsTaken ∧
      r.persisted = inp.writeOk ∧
      st'.lastCaptured = (st.frameCount : ℤ) ∧
      st'.frameCount = st.frameCount + 1 ∧
      st'.screenshotsTaken =
        (if inp.writeOk then st.screenshotsTaken + 1
         else st.screenshotsTaken) := by
  rcases inp with ⟨g, w⟩
  rcases g with _ | g
  · rw [step_gray_none] at h
    simp only [Option.some.injEq, Prod.mk.injEq] at h
    exact absurd h.2 (by simp)
  · rcases hdb : decideBranch cfg st g with _ | ob
    · simp only [step, hdb] at h
      exact Option.noConfusion h
    · rcases ob with _ | br
      · simp only [step, hdb, Option.some.injEq, Prod.mk.injEq] at h
        exact absurd h.2 (by simp)
      · simp only [step, hdb, Option.some.injEq, Prod.mk.injEq] at h
        obtain ⟨h1, h2⟩ := h
        rw [← h1, ← h2]
        simp

/-- Frames whose grayscale conversion fails are transparent to the run:
filtering them out of the input changes nothing. -/
lemma runFrom_filter_gray (cfg : Config) :
    ∀ (inputs : List FrameInput) (st : SamplingState),
      runFrom cfg st inputs =
        runFrom cfg st (inputs.filter (fun inp => inp.gray.isSome))
  | [], _ => rfl
  | inp :: rest, st => by
    rcases inp with ⟨g, w⟩
    rcases g with _ | g
    · rw [List.filter_cons_of_neg (by simp)]
      have h1 : runFrom cfg st (FrameInput.mk none w :: rest) =
          runFrom cfg st rest := by
        simp only [runFrom, step_gray_none, Option.toList_none, List.nil_append]
      rw [h1, runFrom_filter_gray cfg rest st]
    · rw [List.filter_cons_of_pos (by simp)]
      show (match step cfg st ⟨some g, w⟩ with
            | none => RunResult.mk [] st true
            | some (st', orec) =>
              let res := runFrom cfg st' rest
              ⟨orec.toList ++ res.records, res.finalState, res.crashed⟩) =
           (match step cfg st ⟨some g, w⟩ with
            | none => RunResult.mk [] st true
            | some (st', orec) =>
              let res := runFrom cfg st'
                (rest.filter (fun inp => inp.gray.isSome))
              ⟨orec.toList ++ res.records, res.finalState, res.crashed⟩)
      cases step cfg st ⟨some g, w⟩ with
      | none => rfl
      | some p =>
        rcases p with ⟨st', orec⟩
        dsimp only
        rw [runFrom_filter_gray cfg rest st']

/-- Complete case analysis of one loop iteration: a conversion-failure
no-op, the modulo-by-zero crash, a processed frame without capture, or a
capture; in the capture case, if the scene branch fired then the cooldown
condition held at that state. -/
lemma step_elim (cfg : Config) (st : SamplingState) (inp : FrameInput) :
    step cfg st inp = some (st, none) ∨
    step cfg st inp = none ∨
    (∃ g, inp.gray = some g ∧
      step cfg st inp =
        some ({ st with prevGray := some g,
                        frameCount := st.frameCount + 1 }, none)) ∨
    (∃ g br, inp.gray = some g ∧
      step cfg st inp =
        some ({ prevGray := some g
                frameCount := st.frameCount + 1
                lastCaptured := (st.frameCount : ℤ)
                screenshotsTaken :=
                  if inp.writeOk then st.screenshotsTaken + 1
                  else st.screenshotsTaken },
              some ⟨st.frameCount, br, st.screenshotsTaken, inp.writeOk⟩) ∧
      (br = Branch.scene →
        (st.frameCount : ℤ) - st.lastCaptured >
          ((cfg.fps * 5 : ℕ) : ℤ))) := by
  rcases inp with ⟨g, w⟩
  rcases g with _ | g
  · exact Or.inl (step_gray_none cfg st w)
  · rcases hp : st.prevGray with _ | prev
    · refine Or.inr (Or.inr (Or.inl ⟨g, rfl, ?_⟩))
      simp only [step, decideBranch, hp]
    · by_cases hsc : meanDiff g prev > cfg.sceneThreshold ∧
          (st.frameCount : ℤ) - st.lastCaptured > ((cfg.fps * 5 : ℕ) : ℤ)
      · refine Or.inr (Or.inr (Or.inr
          ⟨g, Branch.scene, rfl, ?_, fun _ => hsc.2⟩))
        simp only [step, decideBranch, hp, if_pos hsc]
      · by_cases hz : cfg.intervalSeconds * cfg.fps = 0
        · refine Or.inr (Or.inl ?_)
          simp only [step, decideBranch, hp, if_neg hsc, if_pos hz]
        · by_cases hm : st.frameCount % (cfg.intervalSeconds * cfg.fps) = 0
          · refine Or.inr (Or.inr (Or.inr
              ⟨g, Branch.interval, rfl, ?_,
                fun hb => Branch.noConfusion hb⟩))
            simp only [step, decideBranch, hp, if_neg hsc, if_neg hz,
              if_pos hm]
          · refine Or.inr (Or.inr (Or.inl ⟨g, rfl, ?_⟩))
            simp only [step, decideBranch, hp, if_neg hsc, if_neg hz,
              if_neg hm]

/-- Ordering of successive capture decisions: indices strictly grow along
the emitted list, and a scene-change capture is more than `fps*5` frames
after every earlier capture of either branch. -/
def CaptureStep (cfg : Config) (r s : CaptureRecord) : Prop :=
  r.idx < s.idx ∧ (s.branch = Branch.scene →
    (s.idx : ℤ) - (r.idx : ℤ) > ((cfg.fps * 5 : ℕ) : ℤ))

/-- Soundness of the emitted capture list, from any state whose
`last_captured` does not exceed its `frame_count` (true of the initial
state and preserved by every step): every record sits at or after the
current cursor and, if it is a scene capture, beyond the cooldown measured
from the current `last_captured`; and the records are pairwise ordered by
`CaptureStep`. -/
lemma runFrom_records_sound (cfg : Config) :
    ∀ (inputs : List FrameInput) (st : SamplingState),
      st.lastCaptured ≤ (st.frameCount : ℤ) →
      (∀ r ∈ (runFrom cfg st inputs).records,
          st.frameCount ≤ r.idx ∧
          (r.branch = Branch.scene →
            (r.idx : ℤ) - st.lastCaptured > ((cfg.fps * 5 : ℕ) : ℤ)))
      ∧ (runFrom cfg st inputs).records.Pairwise (CaptureStep cfg)
  | [], st, h => by simp [runFrom]
  | inp :: rest, st, h => by
    rcases step_elim cfg st inp with hstep | hstep | ⟨g, hg, hstep⟩ |
      ⟨g, br, hg, hstep, hcool⟩
    · have hrun : runFrom cfg st (inp :: rest) = runFrom cfg st rest := by
        simp only [runFrom, hstep, Option.toList_none, List.nil_append]
      rw [hrun]
      exact runFrom_records_sound cfg rest st h
    · have hrun : runFrom cfg st (inp :: rest) =
          ⟨[], st, true⟩ := by
        simp only [runFrom, hstep]
      rw [hrun]
      simp
    · have h' : st.lastCaptured ≤ ((st.frameCount + 1 : ℕ) : ℤ) := by
        push_cast
        omega
      have hrec := runFrom_records_sound cfg rest
        { st with prevGray := some g, frameCount := st.frameCount + 1 } h'
      have hrun : runFrom cfg st (inp :: rest) =
          runFrom cfg
            { st with prevGray := some g,
                      frameCount := st.frameCount + 1 } rest := by
        simp only [runFrom, hstep, Option.toList_none, List.nil_append]
      rw [hrun]
      refine ⟨fun r hr => ?_, hrec.2⟩
      have h1 : st.frameCount + 1 ≤ r.idx := (hrec.1 r hr).1
      have h2 : r.branch = Branch.scene →
          (r.idx : ℤ) - st.lastCaptured > ((cfg.fps * 5 : ℕ) : ℤ) :=
        (hrec.1 r hr).2
      exact ⟨by omega, h2⟩
    · have h' : (st.frameCount : ℤ) ≤ ((st.frameCount + 1 : ℕ) : ℤ) := by
        push_cast
        omega
      have hrec := runFrom_records_sound cfg rest
        { prevGray := some g
          frameCount := st.frameCount + 1
          lastCaptured := (st.frameCount : ℤ)
          screenshotsTaken :=
            if inp.writeOk then st.screenshotsTaken + 1
            else st.screenshotsTaken } h'
      rw [show runFrom cfg st (inp :: rest) =
          (⟨(⟨st.frameCount, br, st.screenshotsTaken, inp.writeOk⟩ :
              CaptureRecord) ::
            (runFrom cfg
              { prevGray := some g
                frameCount := st.frameCount + 1
                lastCaptured := (st.frameCount : ℤ)
                screenshotsTaken :=
                  if inp.writeOk then st.screenshotsTaken + 1
                  else st.screenshotsTaken } rest).records,
           (runFrom cfg
              { prevGray := some g
                frameCount := st.frameCount + 1
                lastCaptured := (st.frameCount : ℤ)
                screenshotsTaken :=
                  if inp.writeOk then st.screenshotsTaken + 1
                  else st.screenshotsTaken } rest).finalState,
           (runFrom cfg
              { prevGray := some g
                frameCount := st.frameCount + 1
                lastCaptured := (st.frameCount : ℤ)
                screenshotsTaken :=
                  if inp.writeOk then st.screenshotsTaken + 1
                  else st.screenshotsTaken } rest).crashed⟩ : RunResult)
          from by simp only [runFrom, hstep]; rfl]
      constructor
      · intro r hr
        rcases List.mem_cons.mp hr with rfl | hr

        · exact ⟨le_refl _, fun hbr => hcool hbr⟩
        · have h1 : st.frameCount + 1 ≤ r.idx := (hrec.1 r hr).1
          have h2 : r.branch = Branch.scene →
              (r.idx : ℤ) - (st.frameCount : ℤ) >
                ((cfg.fps * 5 : ℕ) : ℤ) :=
            (hrec.1 r hr).2
          refine ⟨by omega, fun hbr => ?_⟩
          have h3 := h2 hbr
          have h4 : st.lastCaptured ≤ (st.frameCount : ℤ) := h
          omega
      · refine List.Pairwise.cons ?_ hrec.2
        intro s hs
        have h1 : st.frameCount + 1 ≤ s.idx := (hrec.1 s hs).1
        have h2 : s.branch = Branch.scene →
            (s.idx : ℤ) - (st.frameCount : ℤ) >
              ((cfg.fps * 5 : ℕ) : ℤ) :=
          (hrec.1 s hs).2
        exact ⟨show st.frameCount < s.idx by omega, fun hbs => h2 hbs⟩

/-- The initial state satisfies the `last_captured ≤ frame_count`
invariant: the sentinel `-interval_seconds * fps` is non-positive. -/
lemma initState_invariant (cfg : Config) :
    (initState cfg).lastCaptured ≤ ((initState cfg).frameCount : ℤ) := by
  simp only [initState]
  omega

/-- A list of records with strictly increasing indices holds at most one
record for any given frame index. -/
lemma countP_idx_le_one (l : List CaptureRecord) (i : ℕ)
    (h : l.Pairwise (fun r s => r.idx < s.idx)) :
    l.countP (fun r => r.idx == i) ≤ 1 := by
  induction l with
  | nil => simp
  | cons a l ih =>
    rw [List.countP_cons]
    rcases List.pairwise_cons.mp h with ⟨ha, hl⟩
    by_cases hai : a.idx = i
    · have hz : l.countP (fun r => r.idx == i) = 0 := by
        rw [List.countP_eq_zero]
        intro r hr
        have := ha r hr
        simp only [beq_iff_eq]
        omega
      simp [hz, hai]
    · simp only [beq_iff_eq, hai, if_false, decide_eq_true_eq]
      simpa using ih hl

/-- The first capture decision emitted from a state carries that state's
`screenshots_taken` as its sequence number: the counter only moves at
captures. -/
lemma runFrom_first_seq (cfg : Config) :
    ∀ (inputs : List FrameInput) (st : SamplingState) (r : CaptureRecord)
      (l : List CaptureRecord),
      (runFrom cfg st inputs).records = r :: l →
      r.seq = st.screenshotsTaken
  | [], st, r, l, h => by simp [runFrom] at h
  | inp :: rest, st, r, l, h => by
    rcases step_elim cfg st inp with hstep | hstep | ⟨g, hg, hstep⟩ |
      ⟨g, br, hg, hstep, hcool⟩
    · rw [show (runFrom cfg st (inp :: rest)).records =
          (runFrom cfg st rest).records from by
        simp only [runFrom, hstep, Option.toList_none, List.nil_append]] at h
      exact runFrom_first_seq cfg rest st r l h
    · rw [show (runFrom cfg st (inp :: rest)).records =
          ([] : List CaptureRecord) from by
        simp only [runFrom, hstep]] at h
      exact List.noConfusion h
    · rw [show (runFrom cfg st (inp :: rest)).records =
          (runFrom cfg
            { st with prevGray := some g,
                      frameCount := st.frameCount + 1 } rest).records from by
        simp only [runFrom, hstep, Option.toList_none, List.nil_append]] at h
      exact runFrom_first_seq cfg rest
        { st with prevGray := some g, frameCount := st.frameCount + 1 } r l h
    · rw [show (runFrom cfg st (inp :: rest)).records =
          (⟨st.frameCount, br, st.screenshotsTaken, inp.writeOk⟩ :
              CaptureRecord) ::
            (runFrom cfg
              { prevGray := some g
                frameCount := st.frameCount + 1
                lastCaptured := (st.frameCount : ℤ)
                screenshotsTaken :=
                  if inp.writeOk then st.screenshotsTaken + 1
                  else st.screenshotsTaken } rest).records from by
        simp only [runFrom, hstep]
        rfl] at h
      rw [← (List.cons.injEq .. |>.mp h).1]

/-- The per-frame trace of loop states: the state before each processed
frame, plus the state at loop exit (or at the crash). -/
def stateTrace (cfg : Config) (st : SamplingState) :
    List FrameInput → List SamplingState
  | [] => [st]
  | inp :: rest =>
    match step cfg st inp with
    | none => [st]
    | some (st', _) => st :: stateTrace cfg st' rest

/-- The trace from `st` starts with `st`. -/
lemma stateTrace_head (cfg : Config) (inputs : List FrameInput)
    (st : SamplingState) :
    (stateTrace cfg st inputs).head? = some st := by
  cases inputs with
  | nil => rfl
  | cons inp rest =>
    show (match step cfg st inp with
          | none => [st]
          | some (st', _) => st :: stateTrace cfg st' rest).head? =
        some st
    cases step cfg st inp with
    | none => rfl
    | some p =>
      rcases p with ⟨st', o⟩
      rfl

/-- Along the whole trace, `last_captured` never decreases: under the
`last_captured ≤ frame_count` invariant, every step either leaves it
unchanged or raises it to the (strictly larger or equal) current frame
index. -/
lemma stateTrace_chain (cfg : Config) :
    ∀ (inputs : List FrameInput) (st : SamplingState),
      st.lastCaptured ≤ (st.frameCount : ℤ) →
      List.Chain' (fun a b => a.lastCaptured ≤ b.lastCaptured)
        (stateTrace cfg st inputs)
  | [], st, h => by simp [stateTrace]
  | inp :: rest, st, h => by
    rcases step_elim cfg st inp with hstep | hstep | ⟨g, hg, hstep⟩ |
      ⟨g, br, hg, hstep, hcool⟩
    · rw [show stateTrace cfg st (inp :: rest) =
          st :: stateTrace cfg st rest from by
        simp only [stateTrace, hstep]]
      refine List.chain'_cons'.mpr ⟨?_, stateTrace_chain cfg rest st h⟩
      intro y hy
      rw [stateTrace_head cfg rest st] at hy
      rw [← Option.some.injEq .. |>.mp hy]
    · rw [show stateTrace cfg st (inp :: rest) = [st] from by
        simp only [stateTrace, hstep]]
      exact List.chain'_singleton st
    · have h' : st.lastCaptured ≤ ((st.frameCount + 1 : ℕ) : ℤ) := by
        push_cast
        omega
      rw [show stateTrace cfg st (inp :: rest) =
          st :: stateTrace cfg
            { st with prevGray := some g,
                      frameCount := st.frameCount + 1 } rest from by
        simp only [stateTrace, hstep]]
      refine List.chain'_cons'.mpr ⟨?_, stateTrace_chain cfg rest _ h'⟩
      intro y hy
      rw [stateTrace_head cfg rest _] at hy
      rw [← Option.some.injEq .. |>.mp hy]
    · have h' : (st.frameCount : ℤ) ≤ ((st.frameCount + 1 : ℕ) : ℤ) := by
        push_cast
        omega
      rw [show stateTrace cfg st (inp :: rest) =
          st :: stateTrace cfg
            { prevGray := some g
              frameCount := st.frameCount + 1
              lastCaptured := (st.frameCount : ℤ)
              screenshotsTaken :=
                if inp.writeOk then st.screenshotsTaken + 1
                else st.screenshotsTaken } rest from by
        simp only [stateTrace, hstep]]
      refine List.chain'_cons'.mpr ⟨?_, stateTrace_chain cfg rest _ h'⟩
      intro y hy
      rw [stateTrace_head cfg rest _] at hy
      rw [← Option.some.injEq .. |>.mp hy]
      exact h

/-- On a quiet stream (every frame within threshold of its predecessor),
from any state whose history is seeded, the run never crashes (given
`interval_seconds * fps ≠ 0`) and captures exactly the frame indices
divisible by `interval_seconds * fps`, via the interval branch. -/
lemma run_quiet (cfg : Config) (hkf : cfg.intervalSeconds * cfg.fps ≠ 0) :
    ∀ (gs : List Gray) (st : SamplingState) (p : Gray),
      st.prevGray = some p →
      List.Chain (fun a b => meanDiff b a ≤ cfg.sceneThreshold) p gs →
      (runFrom cfg st (okFrames gs)).records.map (fun r => r.idx) =
        (List.range' st.frameCount gs.length).filter
          (fun i => i % (cfg.intervalSeconds * cfg.fps) == 0)
  | [], st, p, hp, hch => by simp [runFrom, okFrames]
  | g :: gs, st, p, hp, hch => by
    rcases List.chain_cons.mp hch with ⟨h1, h2⟩
    have hsc : ¬ (meanDiff g p > cfg.sceneThreshold ∧
        (st.frameCount : ℤ) - st.lastCaptured > ((cfg.fps * 5 : ℕ) : ℤ)) :=
      fun hc => absurd hc.1 (not_lt.mpr h1)
    have hcons : okFrames (g :: gs) =
        (⟨some g, true⟩ : FrameInput) :: okFrames gs := rfl
    rw [hcons]
    by_cases hm : st.frameCount % (cfg.intervalSeconds * cfg.fps) = 0
    · have hstep : step cfg st ⟨some g, true⟩ =
          some ({ prevGray := some g
                  frameCount := st.frameCount + 1
                  lastCaptured := (st.frameCount : ℤ)
                  screenshotsTaken := st.screenshotsTaken + 1 },
                some ⟨st.frameCount, Branch.interval,
                  st.screenshotsTaken, true⟩) := by
        simp only [step, decideBranch, hp, if_neg hsc, if_neg hkf,
          if_pos hm]
        rfl
      have IH : (runFrom cfg
            { prevGray := some g
              frameCount := st.frameCount + 1
              lastCaptured := (st.frameCount : ℤ)
              screenshotsTaken := st.screenshotsTaken + 1 }
            (okFrames gs)).records.map (fun r => r.idx) =
          (List.range' (st.frameCount + 1) gs.length).filter
            (fun i => i % (cfg.intervalSeconds * cfg.fps) == 0) :=
        run_quiet cfg hkf gs _ g rfl h2
      rw [show runFrom cfg st ((⟨some g, true⟩ : FrameInput) ::
            okFrames gs) =
          ⟨(⟨st.frameCount, Branch.interval, st.screenshotsTaken, true⟩ :
              CaptureRecord) ::
            (runFrom cfg
              { prevGray := some g
                frameCount := st.frameCount + 1
                lastCaptured := (st.frameCount : ℤ)
                screenshotsTaken := st.screenshotsTaken + 1 }
              (okFrames gs)).records,
           (runFrom cfg
              { prevGray := some g
                frameCount := st.frameCount + 1
                lastCaptured := (st.frameCount : ℤ)
                screenshotsTaken := st.screenshotsTaken + 1 }
              (okFrames gs)).finalState,
           (runFrom cfg
              { prevGray := some g
                frameCount := st.frameCount + 1
                lastCaptured := (st.frameCount : ℤ)
                screenshotsTaken := st.screenshotsTaken + 1 }
              (okFrames gs)).crashed⟩ from by
        simp only [runFrom, hstep]
        rfl]
      rw [List.length_cons, List.range'_succ]
      rw [List.filter_cons_of_pos (by simpa using hm)]
      simp only [List.map_cons]
      rw [IH]
    · have hstep : step cfg st ⟨some g, true⟩ =
          some ({ st with prevGray := some g,
                          frameCount := st.frameCount + 1 }, none) := by
        simp only [step, decideBranch, hp, if_neg hsc, if_neg hkf,
          if_neg hm]
      have IH : (runFrom cfg
            { st with prevGray := some g,
                      frameCount := st.frameCount + 1 }
            (okFrames gs)).records.map (fun r => r.idx) =
          (List.range' (st.frameCount + 1) gs.length).filter
            (fun i => i % (cfg.intervalSeconds * cfg.fps) == 0) :=
        run_quiet cfg hkf gs _ g rfl h2
      rw [show runFrom cfg st ((⟨some g, true⟩ : FrameInput) ::
            okFrames gs) =
          runFrom cfg
            { st with prevGray := some g,
                      frameCount := st.frameCount + 1 }
            (okFrames gs) from by
        simp only [runFrom, hstep, Option.toList_none, List.nil_append]]
      rw [List.length_cons, List.range'_succ]
      rw [List.filter_cons_of_neg (by simpa using hm)]
      exact IH

/-- The frame indices in `[1, m]` divisible by `d` are exactly
`d, 2d, …, (m/d)·d`. -/
lemma filter_range'_mod (d : ℕ) (hd : d ≠ 0) :
    ∀ m : ℕ,
      (List.range' 1 m).filter (fun i => i % d == 0) =
        (List.range (m / d)).map (fun j => (j + 1) * d)
  | 0 => by simp
  | m + 1 => by
    rw [List.range'_concat, List.filter_append, filter_range'_mod d hd m]
    have he : 1 + 1 * m = m + 1 := by omega
    rw [he]
    by_cases hdvd : d ∣ (m + 1)
    · have hmod : ((m + 1) % d == 0) = true := by
        simp [Nat.dvd_iff_mod_eq_zero.mp hdvd]
      have hq : (m + 1) / d = m / d + 1 := by
        rw [Nat.succ_div, if_pos hdvd]
      have hv : (m / d + 1) * d = m + 1 := by
        have h2 : (m + 1) / d * d = m + 1 := Nat.div_mul_cancel hdvd
        rw [hq] at h2
        exact h2
      rw [hq, List.range_succ, List.map_append]
      simp only [List.filter_cons, List.filter_nil, hmod, if_true]
      congr 1
      rw [List.map_singleton, hv]
    · have hmod : ((m + 1) % d == 0) = false := by
        simp only [beq_eq_false_iff_ne, ne_eq]
        intro hc
        exact hdvd (Nat.dvd_iff_mod_eq_zero.mpr hc)
      have hq : (m + 1) / d = m / d := by
        rw [Nat.succ_div, if_neg hdvd, Nat.add_zero]
      rw [hq]
      simp [hmod]

/-! ## The claims -/

/-- C1 (counterexample): the claim predicts, for a one-frame stream with
`interval_seconds = 1` and `fps = 1`, `ceil(1/1) = 1` capture at frame
index `0`; the code captures nothing, because the first frame only seeds
`prev_frame` and the decision rule is guarded by
`if prev_frame is not None`. -/
theorem c1_counterexample :
    (extractFrames ⟨1, 1, 30⟩ (okFrames [[0]])).records.map
        (fun r => r.idx) ≠ [0]
    ∧ (extractFrames ⟨1, 1, 30⟩ (okFrames [[0]])).records = [] := by
  decide

/-- C1 (amended): on a stream of `N` frames with no scene change (every
consecutive pair within the threshold), with `interval_seconds = k ≥ 1`
and `fps = f ≥ 1`, the captures occur exactly at frame indices
`k*f, 2*k*f, …` — index 0 is never captured, because the first frame
only seeds the history — and the captured count is
`floor((N-1) / (k*f))`, which is `ceil(N /(k*f)) - 1` for `N ≥ 1`,
not `ceil(N / (k*f))`. -/
theorem c1_interval_captures (cfg : Config) (gs : List Gray)
    (hk : 1 ≤ cfg.intervalSeconds) (hf : 1 ≤ cfg.fps)
    (hquiet : gs.Chain'
      (fun a b => meanDiff b a ≤ cfg.sceneThreshold)) :
    (extractFrames cfg (okFrames gs)).records.map (fun r => r.idx) =
      (List.range
          ((gs.length - 1) / (cfg.intervalSeconds * cfg.fps))).map
        (fun j => (j + 1) * (cfg.intervalSeconds * cfg.fps))
    ∧ (extractFrames cfg (okFrames gs)).records.length =
        (gs.length - 1) / (cfg.intervalSeconds * cfg.fps) := by
  have hkf : cfg.intervalSeconds * cfg.fps ≠ 0 :=
    Nat.mul_ne_zero (by omega) (by omega)
  cases gs with
  | nil =>
    constructor
    · simp [extractFrames, runFrom, okFrames]
    · simp [extractFrames, runFrom, okFrames]
  | cons g gs =>
    have hch : List.Chain
        (fun a b => meanDiff b a ≤ cfg.sceneThreshold) g gs := hquiet
    have hseed : step cfg (initState cfg) ⟨some g, true⟩ =
        some ({ prevGray := some g
                frameCount := 1
                lastCaptured :=
                  -((cfg.intervalSeconds * cfg.fps : ℕ) : ℤ)
                screenshotsTaken := 0 }, none) := by
      simp only [step, decideBranch, initState]
    have hrw : extractFrames cfg (okFrames (g :: gs)) =
        runFrom cfg
          { prevGray := some g
            frameCount := 1
            lastCaptured := -((cfg.intervalSeconds * cfg.fps : ℕ) : ℤ)
            screenshotsTaken := 0 } (okFrames gs) := by
      show runFrom cfg (initState cfg)
          ((⟨some g, true⟩ : FrameInput) :: okFrames gs) = _
      simp only [runFrom, hseed, Option.toList_none, List.nil_append]
    rw [hrw]
    have hq : (runFrom cfg
          { prevGray := some g
            frameCount := 1
            lastCaptured := -((cfg.intervalSeconds * cfg.fps : ℕ) : ℤ)
            screenshotsTaken := 0 }
          (okFrames gs)).records.map (fun r => r.idx) =
        (List.range' 1 gs.length).filter
          (fun i => i % (cfg.intervalSeconds * cfg.fps) == 0) :=
      run_quiet cfg hkf gs _ g rfl hch
    have hlen : (g :: gs).length - 1 = gs.length := by
      simp
    constructor
    · rw [hq, hlen, filter_range'_mod _ hkf gs.length]
    · have hml : (runFrom cfg
            { prevGray := some g
              frameCount := 1
              lastCaptured := -((cfg.intervalSeconds * cfg.fps : ℕ) : ℤ)
              screenshotsTaken := 0 }
            (okFrames gs)).records.length =
          ((runFrom cfg
            { prevGray := some g
              frameCount := 1
              lastCaptured := -((cfg.intervalSeconds * cfg.fps : ℕ) : ℤ)
              screenshotsTaken := 0 }
            (okFrames gs)).records.map (fun r => r.idx)).length := by
        rw [List.length_map]
      rw [hml, hq, hlen, filter_range'_mod _ hkf gs.length,
        List.length_map, List.length_range]

/-- C1 witness: three identical one-pixel frames at
`interval_seconds = 1`, `fps = 1`: captures at indices 1 and 2
(`(3-1)/1 = 2` of them), not at 0. -/
theorem c1_witness :
    (extractFrames ⟨1, 1, 30⟩
        (okFrames [[0], [0], [0]])).records.map (fun r => r.idx) =
      (List.range ((3 - 1) / (1 * 1))).map (fun j => (j + 1) * (1 * 1))
    ∧ (extractFrames ⟨1, 1, 30⟩
        (okFrames [[0], [0], [0]])).records.length = (3 - 1) / (1 * 1) :=
  c1_interval_captures ⟨1, 1, 30⟩ [[0], [0], [0]]
    (le_refl 1) (le_refl 1)
    (List.Chain.cons (by with_unfolding_all decide)
      (List.Chain.cons (by with_unfolding_all decide) List.Chain.nil))

/-- C3: on the synthetic 100-frame stream at `fps = 10` whose first 50
frames are constant gray 0 and last 50 constant gray 255, with
`scene_threshold = 30` and `interval_seconds = 100`, the extractor makes
exactly one capture, at frame index 50, through the scene-change branch;
frame 0 only seeds the history. -/
theorem c3_synthetic_run :
    (extractFrames ⟨10, 100, 30⟩
        (okFrames (List.replicate 50 [0] ++ List.replicate 50 [255]))).records
      = [⟨50, Branch.scene, 0, true⟩]
    ∧ (extractFrames ⟨10, 100, 30⟩
        (okFrames (List.replicate 50 [0] ++
          List.replicate 50 [255]))).finalState.screenshotsTaken = 1 := by
  with_unfolding_all decide

/-- C4: the timestamp resolver computes
`frame_index = (minutes*60 + seconds) * fps` (the `int(...)` floor is exact
on integer inputs) and fails with `BeyondDuration` exactly when that index
reaches `total_frames`; below `total_frames` it returns the computed
index. -/
theorem c4_resolve_beyond_duration (minutes seconds fps totalFrames : ℕ) :
    (resolveTimestamp minutes seconds fps totalFrames =
        .error .beyondDuration ↔
      totalFrames ≤ (minutes * 60 + seconds) * fps)
    ∧ (resolveTimestamp minutes seconds fps totalFrames =
        .ok ((minutes * 60 + seconds) * fps) ↔
      (minutes * 60 + seconds) * fps < totalFrames) := by
  simp only [resolveTimestamp, ge_iff_le]
  by_cases h : totalFrames ≤ (minutes * 60 + seconds) * fps
  · rw [if_pos h]
    exact ⟨⟨fun _ => h, fun _ => rfl⟩,
      ⟨fun hc => Except.noConfusion hc, fun hc => absurd h (by omega)⟩⟩
  · rw [if_neg h]
    exact ⟨⟨fun hc => Except.noConfusion hc, fun hc => absurd hc h⟩,
      ⟨fun _ => by omega, fun _ => rfl⟩⟩

/-- C5 (counterexample): against a 300-frame, 30 fps video the batch
`[(1,0), (999,0), (2,0)]` resolves to frame indices 1800, 1798200 and 3600,
all at or beyond 300, so all three timestamps fail and none succeeds — not
the two successes at indices 30 and 60 the claim states. -/
theorem c5_counterexample :
    captureTimestamps ⟨30, 300⟩ [(1, 0), (999, 0), (2, 0)] =
      (0, [], [(1, 0), (999, 0), (2, 0)])
    ∧ (captureTimestamps ⟨30, 300⟩ [(1, 0), (999, 0), (2, 0)]).1 ≠ 2 := by
  decide

/-- C5 (amended): against a 300-frame, 30 fps video the batch
`[(0,1), (999,0), (0,2)]` succeeds for exactly two timestamps, capturing
frame indices 30 and 60, and reports exactly one failure, for `(999,0)`,
without aborting the rest of the batch (the capture at index 60 happens
after the failure). -/
theorem c5_batch_continues :
    captureTimestamps ⟨30, 300⟩ [(0, 1), (999, 0), (0, 2)] =
      (2, [30, 60], [(999, 0)]) := by
  decide

/-- C7 (counterexample): with `scene_threshold = 0` (which satisfies
`scene_threshold ≤ 0`) and two identical frames at `fps = 1`,
`interval_seconds = 100`, the cooldown has elapsed at frame 1
(`1 - (-100) = 101 > 5`) yet no capture occurs, because `mean_diff = 0` is
not strictly greater than the threshold `0`. -/
theorem c7_counterexample :
    (Config.mk 1 100 0).sceneThreshold ≤ 0
    ∧ ((1 : ℤ) - (initState ⟨1, 100, 0⟩).lastCaptured >
        ((1 * 5 : ℕ) : ℤ))
    ∧ (extractFrames ⟨1, 100, 0⟩ (okFrames [[0], [0]])).records = [] := by
  refine ⟨le_refl 0, by decide, by with_unfolding_all decide⟩

/-- C2: the scene-change cooldown. In every run, for every parameter
setting, any two captures fired by the scene-change branch are more than
`fps*5` frame indices apart: the branch requires
`frame_count - last_captured > fps * 5` and every capture (of either
branch) bumps `last_captured` to the current index. -/
theorem c2_scene_cooldown (cfg : Config) (inputs : List FrameInput) :
    (extractFrames cfg inputs).records.Pairwise
      (fun r s => r.branch = Branch.scene → s.branch = Branch.scene →
        (s.idx : ℤ) - (r.idx : ℤ) > ((cfg.fps * 5 : ℕ) : ℤ)) := by
  have h := runFrom_records_sound cfg inputs (initState cfg)
    (initState_invariant cfg)
  exact h.2.imp (fun hcs _ hbs => hcs.2 hbs)

/-- C6: no double capture. When both the scene-change condition
(`mean_diff` above threshold, cooldown elapsed) and the interval condition
(`frame_count` divisible by `interval_seconds * fps`) hold at a frame, the
step emits exactly one capture record, through the scene branch
(`should_capture` is a single flag set by an `if/elif`); and over a whole
run no frame index ever carries two capture records. -/
theorem c6_no_double_capture (cfg : Config) (inputs : List FrameInput)
    (st : SamplingState) (prev g : Gray) (w : Bool) (i : ℕ)
    (hprev : st.prevGray = some prev)
    (hscene : meanDiff g prev > cfg.sceneThreshold)
    (hcool : (st.frameCount : ℤ) - st.lastCaptured >
      ((cfg.fps * 5 : ℕ) : ℤ))
    (_hint : st.frameCount % (cfg.intervalSeconds * cfg.fps) = 0) :
    step cfg st ⟨some g, w⟩ =
      some ({ prevGray := some g
              frameCount := st.frameCount + 1
              lastCaptured := (st.frameCount : ℤ)
              screenshotsTaken :=
                if w then st.screenshotsTaken + 1
                else st.screenshotsTaken },
            some ⟨st.frameCount, Branch.scene, st.screenshotsTaken, w⟩)
    ∧ (extractFrames cfg inputs).records.countP
        (fun r => r.idx == i) ≤ 1 := by
  constructor
  · have hc : meanDiff g prev > cfg.sceneThreshold ∧
        (st.frameCount : ℤ) - st.lastCaptured > ((cfg.fps * 5 : ℕ) : ℤ) :=
      ⟨hscene, hcool⟩
    simp only [step, decideBranch, hprev, if_pos hc]
  · have h := runFrom_records_sound cfg inputs (initState cfg)
      (initState_invariant cfg)
    exact countP_idx_le_one _ i (h.2.imp (fun hcs => hcs.1))

/-- C6 witness: at `fps = 1`, `interval_seconds = 1`, threshold 30, state
`frame 1, last_captured = -100`, previous frame all-0 and current frame
all-255, both branches' conditions hold and the step emits the single
scene record at index 1. -/
theorem c6_witness :
    step ⟨1, 1, 30⟩ ⟨some [0], 1, -100, 0⟩ ⟨some [255], true⟩ =
      some (⟨some [255], 2, 1, 1⟩,
            some ⟨1, Branch.scene, 0, true⟩)
    ∧ (extractFrames ⟨1, 1, 30⟩ ([] : List FrameInput)).records.countP
        (fun r => r.idx == 0) ≤ 1 :=
  c6_no_double_capture ⟨1, 1, 30⟩ [] ⟨some [0], 1, -100, 0⟩ [0] [255]
    true 0 rfl (by with_unfolding_all decide)
    (by with_unfolding_all decide) (by decide)

/-- C7 (amended): for every strictly negative `scene_threshold`, on any
frame after the first (history present), once the cooldown has elapsed the
scene-change branch fires and captures the frame regardless of its
content — `mean_diff ≥ 0 > scene_threshold` always holds, even for a frame
identical to the previous one.  (At `scene_threshold = 0` this fails: the
comparison `mean_diff > scene_threshold` is strict.) -/
theorem c7_negative_threshold_always_captures (cfg : Config)
    (st : SamplingState) (prev g : Gray) (w : Bool)
    (hneg : cfg.sceneThreshold < 0)
    (hprev : st.prevGray = some prev)
    (hcool : (st.frameCount : ℤ) - st.lastCaptured >
      ((cfg.fps * 5 : ℕ) : ℤ)) :
    step cfg st ⟨some g, w⟩ =
      some ({ prevGray := some g
              frameCount := st.frameCount + 1
              lastCaptured := (st.frameCount : ℤ)
              screenshotsTaken :=
                if w then st.screenshotsTaken + 1
                else st.screenshotsTaken },
            some ⟨st.frameCount, Branch.scene, st.screenshotsTaken, w⟩) := by
  have hc : meanDiff g prev > cfg.sceneThreshold ∧
      (st.frameCount : ℤ) - st.lastCaptured > ((cfg.fps * 5 : ℕ) : ℤ) :=
    ⟨lt_of_lt_of_le hneg (meanDiff_nonneg g prev), hcool⟩
  simp only [step, decideBranch, hprev, if_pos hc]

/-- C7 witness: threshold `-1`, two identical all-0 frames, cooldown long
elapsed — the scene branch fires at frame 1. -/
theorem c7_witness :
    step ⟨1, 100, -1⟩ ⟨some [0], 1, -100, 0⟩ ⟨some [0], true⟩ =
      some (⟨some [0], 2, 1, 1⟩,
            some ⟨1, Branch.scene, 0, true⟩) :=
  c7_negative_threshold_always_captures ⟨1, 100, -1⟩
    ⟨some [0], 1, -100, 0⟩ [0] [0] true
    (by with_unfolding_all decide) rfl (by decide)

/-- C8: `last_captured` is monotonically non-decreasing along every run:
between any two consecutive loop states it is either unchanged (no
capture, or a skipped frame) or set to the current frame index, which the
`last_captured ≤ frame_count` invariant makes at least the old value. -/
theorem c8_last_captured_monotone (cfg : Config)
    (inputs : List FrameInput) :
    List.Chain' (fun a b => a.lastCaptured ≤ b.lastCaptured)
      (stateTrace cfg (initState cfg) inputs) :=
  stateTrace_chain cfg inputs (initState cfg) (initState_invariant cfg)

/-- C9: a capture whose image write fails still updates `last_captured` to
the current frame index (starting the `fps*5` cooldown) while
`screenshots_taken` stays put; in particular the record's sequence number
equals the unchanged counter, the record is marked unpersisted, and the
next capture emitted afterwards reuses the very same sequence number. -/
theorem c9_failed_write_reuses_seq (cfg : Config) (st st' : SamplingState)
    (g : Gray) (r : CaptureRecord)
    (h : step cfg st ⟨some g, false⟩ = some (st', some r)) :
    st'.lastCaptured = (st.frameCount : ℤ)
    ∧ st'.screenshotsTaken = st.screenshotsTaken
    ∧ r.seq = st.screenshotsTaken
    ∧ r.persisted = false
    ∧ ∀ (rest : List FrameInput) (r' : CaptureRecord)
        (l : List CaptureRecord),
        (runFrom cfg st' rest).records = r' :: l →
        r'.seq = st.screenshotsTaken := by
  have he := step_capture_elim cfg st st' ⟨some g, false⟩ r h
  have htk : st'.screenshotsTaken = st.screenshotsTaken := by
    have := he.2.2.2.2.2
    simpa using this
  refine ⟨he.2.2.2.1, htk, he.2.1, by simpa using he.2.2.1, ?_⟩
  intro rest r' l hr
  rw [runFrom_first_seq cfg rest st' r' l hr]
  exact htk

/-- C9 witness: at `fps = 1`, `interval_seconds = 1`, the interval branch
captures frame 1 but the write fails; `last_captured` becomes 1,
`screenshots_taken` stays 0, the record carries seq 0 unpersisted, and the
next capture (frame 2, write succeeds) reuses seq 0. -/
theorem c9_witness :
    ((⟨some [0], 2, 1, 0⟩ : SamplingState).lastCaptured = ((1 : ℕ) : ℤ))
    ∧ ((⟨some [0], 2, 1, 0⟩ : SamplingState).screenshotsTaken = 0)
    ∧ ((⟨1, Branch.interval, 0, false⟩ : CaptureRecord).seq = 0)
    ∧ ((⟨1, Branch.interval, 0, false⟩ : CaptureRecord).persisted = false)
    ∧ ((⟨2, Branch.interval, 0, true⟩ : CaptureRecord).seq = 0) := by
  have h := c9_failed_write_reuses_seq ⟨1, 1, 30⟩ ⟨some [0], 1, -1, 0⟩
    ⟨some [0], 2, 1, 0⟩ [0] ⟨1, Branch.interval, 0, false⟩
    (by with_unfolding_all decide)
  exact ⟨h.1, h.2.1, h.2.2.1, h.2.2.2.1,
    h.2.2.2.2 [⟨some [0], true⟩] ⟨2, Branch.interval, 0, true⟩ []
      (by with_unfolding_all decide)⟩

/-- C10: a frame whose grayscale conversion fails is skipped with no state
change at all — `prev_frame` untouched, `frame_count` not advanced — and
consequently a whole run behaves exactly as if the failing frames were
deleted from the stream: later captures get indices counting only the
frames that converted. -/
theorem c10_conversion_failure_transparent (cfg : Config)
    (inputs : List FrameInput) (st : SamplingState) (w : Bool) :
    step cfg st ⟨none, w⟩ = some (st, none)
    ∧ extractFrames cfg inputs =
        extractFrames cfg (inputs.filter (fun inp => inp.gray.isSome)) :=
  ⟨step_gray_none cfg st w,
   runFrom_filter_gray cfg inputs (initState cfg)⟩

end PPTFromVideo
